import Mathlib

/-!
Verification development for the grid placement engine of the newsletter
pipeline (source file `src/pipeline/src/gridding/grid_placer.py`).

The Python classes `RetryGridPlacer` and `GriddingProcessor` are shallowly
embedded below.  Python ints become `Int`, the numpy occupancy array becomes
a function `Int → Int → Nat` (numpy index order `grid[y, x]` is kept as
`grid cy cx`), mutation becomes explicit state passing, and the global
`random` module becomes an explicit oracle of choice functions.  File I/O
(the fallback JSON file) is modelled as an `Option Blueprint` value: `none`
models a missing or unreadable file.
-/

set_option maxHeartbeats 1600000

/-- Values appearing in a placement's optional data payload (Python dict values:
ints, floats — the concrete floats used by the code are exact — and strings). -/
inductive DVal where
  | intVal (n : Int)
  | ratVal (q : Rat)
  | strVal (s : String)
deriving DecidableEq

/-- A Python dict payload, modelled as an association list. -/
abbrev DataMap := List (String × DVal)

/-- The `Placement` dataclass of `grid_placer.py`. -/
structure Placement where
  component_id : String
  x : Int
  y : Int
  width : Int
  height : Int
  component_type : String
  data : Option DataMap
deriving DecidableEq

/-- Integers `a, a+1, ..., b-1`, i.e. Python `range` semantics for int slices. -/
def intRange (a b : Int) : List Int :=
  (List.range (b - a).toNat).map (fun (n : Nat) => a + (n : Int))

/-- The `RetryGridPlacer` state: grid dimensions, the numpy occupancy array
(modelled as a function; `grid cy cx` is `self.grid[cy, cx]`), and the ordered
placement list. -/
structure RetryGridPlacer where
  grid_width : Int
  grid_height : Int
  grid : Int → Int → Nat
  placements : List Placement

/-- Constructor `RetryGridPlacer(grid_width, grid_height)`: a zero grid and an
empty placement list. -/
def RetryGridPlacer.init (grid_width grid_height : Int) : RetryGridPlacer :=
  { grid_width := grid_width
    grid_height := grid_height
    grid := fun _ _ => 0
    placements := [] }

/-- Method `can_place`: bounds checks in source order, then
`np.all(self.grid[y:y+height, x:x+width] == 0)` (an empty slice yields `true`,
as in numpy). -/
def RetryGridPlacer.can_place (p : RetryGridPlacer) (x y width height : Int) : Bool :=
  if x + width > p.grid_width ∨ y + height > p.grid_height then false
  else if x < 0 ∨ y < 0 then false
  else (intRange y (y + height)).all fun cy =>
    (intRange x (x + width)).all fun cx => p.grid cy cx == 0

/-- Method `place_component`: re-validate via `can_place`; on success set
`self.grid[y:y+height, x:x+width] = 1` and append one `Placement`. -/
def RetryGridPlacer.place_component (p : RetryGridPlacer) (component_id : String)
    (x y width height : Int) (component_type : String) (data : Option DataMap) :
    Bool × RetryGridPlacer :=
  if p.can_place x y width height = false then (false, p)
  else
    (true,
      { p with
        grid := fun cy cx =>
          if y ≤ cy ∧ cy < y + height ∧ x ≤ cx ∧ cx < x + width then 1 else p.grid cy cx
        placements := p.placements ++ [⟨component_id, x, y, width, height, component_type, data⟩] })

/-- Cell `(cy, cx)` lies in the `width`×`height` rectangle whose top-left cell
is `(x, y)` (numpy region `grid[y:y+height, x:x+width]`). -/
def inRect (x y width height cy cx : Int) : Prop :=
  y ≤ cy ∧ cy < y + height ∧ x ≤ cx ∧ cx < x + width

instance (x y width height cy cx : Int) : Decidable (inRect x y width height cy cx) := by
  unfold inRect
  infer_instance

/-- Cell coverage of a placement. -/
def Placement.covers (pl : Placement) (cy cx : Int) : Prop :=
  inRect pl.x pl.y pl.width pl.height cy cx

instance (pl : Placement) (cy cx : Int) : Decidable (pl.covers cy cx) := by
  unfold Placement.covers
  infer_instance

/-- Two rectangles share no grid cell. -/
def rectsDisjoint (x y w h x' y' w' h' : Int) : Prop :=
  ∀ cy cx : Int, ¬ (inRect x y w h cy cx ∧ inRect x' y' w' h' cy cx)

instance (x y w h x' y' w' h' : Int) : Decidable (rectsDisjoint x y w h x' y' w' h') :=
  decidable_of_iff
    (w ≤ 0 ∨ h ≤ 0 ∨ w' ≤ 0 ∨ h' ≤ 0 ∨
      x + w ≤ x' ∨ x' + w' ≤ x ∨ y + h ≤ y' ∨ y' + h' ≤ y)
    (by
      constructor
      · rintro hs cy cx ⟨⟨a1, a2, a3, a4⟩, b1, b2, b3, b4⟩
        omega
      · intro hd
        by_contra hc
        push_neg at hc
        obtain ⟨hw, hh, hw', hh', h1, h2, h3, h4⟩ := hc
        exact hd (max y y') (max x x')
          ⟨⟨le_max_left _ _, max_lt (by omega) (by omega),
            le_max_left _ _, max_lt (by omega) (by omega)⟩,
           ⟨le_max_right _ _, max_lt (by omega) (by omega),
            le_max_right _ _, max_lt (by omega) (by omega)⟩⟩)

/-- The rectangles of two placements do not intersect. -/
def placementsDisjoint (p q : Placement) : Prop :=
  rectsDisjoint p.x p.y p.width p.height q.x q.y q.width q.height

instance (p q : Placement) : Decidable (placementsDisjoint p q) := by
  unfold placementsDisjoint
  infer_instance

/-- A placement's rectangle lies inside a `W`×`H` grid. -/
def placementInBounds (W H : Int) (pl : Placement) : Prop :=
  0 ≤ pl.x ∧ 0 ≤ pl.y ∧ pl.x + pl.width ≤ W ∧ pl.y + pl.height ≤ H

instance (W H : Int) (pl : Placement) : Decidable (placementInBounds W H pl) := by
  unfold placementInBounds
  infer_instance

/-- The data-structure invariant of a `RetryGridPlacer`: placements are in
bounds and pairwise disjoint, and the occupancy array is the indicator of the
union of their rectangles. -/
structure PlacerInvariant (p : RetryGridPlacer) : Prop where
  bounds : ∀ pl ∈ p.placements, placementInBounds p.grid_width p.grid_height pl
  disjoint : p.placements.Pairwise placementsDisjoint
  occupancy : ∀ cy cx : Int,
      (p.grid cy cx = 1 ∧ ∃ pl ∈ p.placements, pl.covers cy cx) ∨
        (p.grid cy cx = 0 ∧ ∀ pl ∈ p.placements, ¬ pl.covers cy cx)

/-- Arguments of one recorded `place_component` call. -/
structure PlaceCall where
  component_id : String
  x : Int
  y : Int
  width : Int
  height : Int
  component_type : String
  data : Option DataMap
deriving DecidableEq

/-- Run one recorded call against a placer (the returned `bool` is dropped). -/
def applyCall (p : RetryGridPlacer) (c : PlaceCall) : RetryGridPlacer :=
  (p.place_component c.component_id c.x c.y c.width c.height c.component_type c.data).2

/-- Run a sequence of `place_component` calls. -/
def applyCalls (p : RetryGridPlacer) (calls : List PlaceCall) : RetryGridPlacer :=
  calls.foldl applyCall p

/-- Method `get_available_positions`: row-major scan (`for y: for x:`) of every
top-left position where a `width`×`height` rectangle can be placed. -/
def RetryGridPlacer.get_available_positions (p : RetryGridPlacer) (width height : Int) :
    List (Int × Int) :=
  (intRange 0 (p.grid_height - height + 1)).flatMap fun y =>
    ((intRange 0 (p.grid_width - width + 1)).filter fun x => p.can_place x y width height).map
      fun x => (x, y)

/-- Method `find_2x2_spaces`. -/
def RetryGridPlacer.find_2x2_spaces (p : RetryGridPlacer) : List (Int × Int) :=
  p.get_available_positions 2 2

/-- Method `find_single_cells`. -/
def RetryGridPlacer.find_single_cells (p : RetryGridPlacer) : List (Int × Int) :=
  p.get_available_positions 1 1

/-- Method `find_2x1_spaces`. -/
def RetryGridPlacer.find_2x1_spaces (p : RetryGridPlacer) : List (Int × Int) :=
  p.get_available_positions 2 1

/-- The `Component` dataclass (fixed-size component spec). -/
structure Component where
  name : String
  width : Int
  height : Int
  count : Nat
  can_rotate : Bool
  priority : Int

/-- One component instance record created in `Component.__post_init__`; the
mutable `placed`/`position` bookkeeping is threaded explicitly by the attempt
loops, so only the immutable fields are kept. -/
structure CInstance where
  id : String
  width : Int
  height : Int
deriving DecidableEq

/-- Instance list of a fixed component: ids `name_1 .. name_count`. -/
def Component.instances (c : Component) : List CInstance :=
  (List.range c.count).map fun i =>
    ⟨c.name ++ "_" ++ toString (i + 1), c.width, c.height⟩

/-- One allowed shape of a flexible component. -/
structure Shape where
  width : Int
  height : Int
deriving DecidableEq

/-- The `FlexibleComponent` dataclass. -/
structure FlexibleComponent where
  name : String
  shapes : List Shape
  total_count : Nat
  can_rotate : Bool
  priority : Int

/-- The component catalog produced by `_create_components`. -/
structure Catalog where
  components : List Component
  flexible_components : List FlexibleComponent

/-- The in-process `random` module, modelled as an oracle of choice functions:
`randPos k` drives the k-th `random.choice(positions)` call of an attempt,
`shapeChoice j` the j-th `random.choice(shapes)` call, `shuffle` the
`random.shuffle` of the worklist, and `randBit i` the `random.randint(0, 1)`
of the i-th bit cell. -/
structure Oracle where
  randPos : Nat → Nat
  shapeChoice : Nat → Nat
  shuffle : List CInstance → List CInstance
  randBit : Nat → Nat

/-- Method `get_random_position`: a choice over the available positions, or
`none` when no position exists (matching
`random.choice(positions) if positions else None`; no randomness is consumed
in the empty case). -/
def getRandomPosition (o : Oracle) (p : RetryGridPlacer) (width height : Int) (k : Nat) :
    Option ((Int × Int) × Nat) :=
  let positions := p.get_available_positions width height
  if positions.isEmpty then none
  else some (positions.getD (o.randPos k % positions.length) (0, 0), k + 1)

/-- Step 1 of one attempt: place every branding instance at a random free
position; `none` models `branding_success = False`. The two nested source
loops break out through the flag, which equals traversing the flattened
instance list until the first failure. `place_component` is called on a
position drawn from the available list, so the `success == False` branch of
the source is unreachable, but it is modelled faithfully. -/
def brandingLoop (o : Oracle) : List CInstance → RetryGridPlacer → Nat →
    Option (RetryGridPlacer × Nat)
  | [], p, k => some (p, k)
  | inst :: rest, p, k =>
      match getRandomPosition o p inst.width inst.height k with
      | none => none
      | some ((x, y), k') =>
          let r := p.place_component inst.id x y inst.width inst.height "branding" none
          if r.1 then brandingLoop o rest r.2 k' else none

/-- Up to 10 random draws for one worklist item (`for _ in range(10)`); a draw
that returns no position consumes an iteration without consuming randomness;
a successful placement stops the loop. The placed component type is
`instance.get('type', 'fixed')`, which is always `"fixed"` because the
instance dict carries no `type` key. -/
def tryItem (o : Oracle) (inst : CInstance) : Nat → RetryGridPlacer → Nat →
    Option (RetryGridPlacer × Nat)
  | 0, _, _ => none
  | fuel + 1, p, k =>
      match getRandomPosition o p inst.width inst.height k with
      | none => tryItem o inst fuel p k
      | some ((x, y), k') =>
          let r := p.place_component inst.id x y inst.width inst.height "fixed" none
          if r.1 then some (r.2, k') else tryItem o inst fuel r.2 k'

/-- Step 2 worklist loop: each item gets `tryItem`; the first item that cannot
be placed aborts the whole attempt (`all_placed = False` then `break`). The
`if instance['placed']: continue` guard of the source is vacuous (instances
are reset before each attempt and appear once in the worklist), so it is not
modelled. -/
def worklistLoop (o : Oracle) : List CInstance → RetryGridPlacer → Nat →
    Option (RetryGridPlacer × Nat)
  | [], p, k => some (p, k)
  | inst :: rest, p, k =>
      match tryItem o inst 10 p k with
      | none => none
      | some (p', k') => worklistLoop o rest p' k'

/-- Flexible worklist entries: one instance per required count with an
independently chosen shape (`random.choice(shapes)`), ids `name_1 ...`;
`j0` is the global index of the next shape draw. -/
def flexItems (o : Oracle) (j0 : Nat) : List FlexibleComponent → List CInstance
  | [] => []
  | fc :: rest =>
      ((List.range fc.total_count).map fun i =>
        let sh := fc.shapes.getD (o.shapeChoice (j0 + i) % fc.shapes.length) ⟨0, 0⟩
        (⟨fc.name ++ "_" ++ toString (i + 1), sh.width, sh.height⟩ : CInstance))
        ++ flexItems o (j0 + fc.total_count) rest

/-- Instances of the components named `branding`
(`[c for c in components if c.name == 'branding']`). -/
def brandingInstances (cat : Catalog) : List CInstance :=
  (cat.components.filter fun c => c.name == "branding").flatMap Component.instances

/-- Instances of the remaining fixed components. -/
def otherInstances (cat : Catalog) : List CInstance :=
  (cat.components.filter fun c => c.name != "branding").flatMap Component.instances

/-- The `all_components` worklist of step 2 before shuffling: remaining fixed
instances plus the flexible instances. -/
def buildWorklist (o : Oracle) (cat : Catalog) : List CInstance :=
  otherInstances cat ++ flexItems o 0 cat.flexible_components

/-- One attempt of `_retry_placement_algorithm` (lines 246-364): fresh placer,
branding first (hard precondition), then the shuffled worklist. -/
def attemptOnce (o : Oracle) (cat : Catalog) (W H : Int) : Option RetryGridPlacer :=
  match brandingLoop o (brandingInstances cat) (RetryGridPlacer.init W H) 0 with
  | none => none
  | some (p1, k1) =>
      match worklistLoop o (o.shuffle (buildWorklist o cat)) p1 k1 with
      | none => none
      | some (p2, _) => some p2

/-- The step configuration consumed by `GriddingProcessor` (`self.config`):
grid dimensions, optional `max_retries` (`config.get('max_retries', 500)`),
and the three fill-pass configs. -/
structure GriddingConfig where
  columns : Int
  rows : Int
  max_retries : Option Nat
  stock_enabled : Bool
  stock_max_count : Nat
  day_enabled : Bool
  bit_enabled : Bool

/-- Effective retry ceiling: `self.config.get('max_retries', 500)`. -/
def effMaxRetries (cfg : GriddingConfig) : Nat :=
  cfg.max_retries.getD 500

/-- Data payload of the stock placeholder with `enumerate` index `i`. -/
def stockData (i : Nat) : DataMap :=
  [("symbol", DVal.strVal ("STOCK_" ++ toString (i + 1))),
   ("price", DVal.ratVal 0),
   ("change", DVal.ratVal 0),
   ("change_percent", DVal.ratVal 0)]

/-- Step 3 loop: walk the precomputed 2×2 spaces, breaking once
`stocks_placed >= max_stocks`; `i` is the `enumerate` index (used for the id),
`placed` the count of successful placements. -/
def stockLoop (p : RetryGridPlacer) (spaces : List (Int × Int)) (i placed maxStocks : Nat) :
    RetryGridPlacer :=
  match spaces with
  | [] => p
  | (x, y) :: rest =>
      if placed ≥ maxStocks then p
      else
        let r := p.place_component ("stock_" ++ toString (i + 1)) x y 2 2 "stock"
          (some (stockData i))
        stockLoop r.2 rest (i + 1) (if r.1 then placed + 1 else placed) maxStocks

/-- Step 3: add stocks to available 2×2 spaces. -/
def stockPass (cfg : GriddingConfig) (p : RetryGridPlacer) : RetryGridPlacer :=
  if cfg.stock_enabled then stockLoop p p.find_2x2_spaces 0 0 cfg.stock_max_count else p

/-- Step 4: one day-number component at the first available 2×1 space. -/
def dayPass (cfg : GriddingConfig) (p : RetryGridPlacer) : RetryGridPlacer :=
  if cfg.day_enabled then
    match p.find_2x1_spaces with
    | [] => p
    | (x, y) :: _ =>
        (p.place_component "day_1" x y 2 1 "dayNumber" (some [("day_number", DVal.intVal 1)])).2
  else p

/-- Step 5 loop: one bit per remaining single cell, each with a random binary
value (`random.randint(0, 1)`). -/
def bitLoop (o : Oracle) (p : RetryGridPlacer) : List (Int × Int) → Nat → RetryGridPlacer
  | [], _ => p
  | (x, y) :: rest, i =>
      let r := p.place_component ("bit_" ++ toString (i + 1)) x y 1 1 "bit"
        (some [("value", DVal.intVal (Int.ofNat (o.randBit i % 2)))])
      bitLoop o r.2 rest (i + 1)

/-- Step 5: fill remaining single cells with bits. -/
def bitPass (o : Oracle) (cfg : GriddingConfig) (p : RetryGridPlacer) : RetryGridPlacer :=
  if cfg.bit_enabled then bitLoop o p p.find_single_cells 0 else p

/-- Steps 3-5 in source order. -/
def fillPasses (o : Oracle) (cfg : GriddingConfig) (p : RetryGridPlacer) : RetryGridPlacer :=
  bitPass o cfg (dayPass cfg (stockPass cfg p))

/-- Method `_create_minimal_fallback` (lines 205-225): a 12×16 grid with three
hardcoded `place_component` calls whose returned bools are ignored. -/
def minimalFallback : RetryGridPlacer :=
  let p0 := RetryGridPlacer.init 12 16
  let p1 := (p0.place_component "branding_1" 0 0 2 2 "branding" none).2
  let p2 := (p1.place_component "headline_1" 2 0 5 4 "headline" none).2
  let p3 := (p2.place_component "quick_link_1" 0 2 6 1 "quick_link" none).2
  p3

/-- Blueprint `position` block (1-based row/column). -/
structure BPPosition where
  row : Int
  column : Int
  width : Int
  height : Int
deriving DecidableEq

/-- One serialized blueprint component. -/
structure BPComponent where
  id : String
  type : String
  position : BPPosition
  data : DataMap
deriving DecidableEq

/-- Blueprint metadata block. -/
structure BPMetadata where
  generated_at : String
  columns : Int
  rows : Int
  cell_size : Int
  total_components : Nat
  efficiency : Rat

/-- The exported blueprint document. -/
structure Blueprint where
  metadata : BPMetadata
  components : List BPComponent

/-- Helper for Python substring containment: does `pat` start `s`. -/
def charsStart : List Char → List Char → Bool
  | [], _ => true
  | _ :: _, [] => false
  | c :: cs, d :: ds => c == d && charsStart cs ds

/-- Helper for Python substring containment: does `pat` occur in `s`. -/
def charsHave (pat : List Char) : List Char → Bool
  | [] => pat.isEmpty
  | s@(_ :: rest) => charsStart pat s || charsHave pat rest

/-- Python `pat in s` on strings. -/
def strIn (pat s : String) : Bool :=
  charsHave pat.toList s.toList

/-- Type-inference chain of `_export_to_blueprint_format`: id substrings
first, then the carried `component_type` tag, else `unknown`. -/
def exportType (pl : Placement) : String :=
  if strIn "headline" pl.component_id then "headline"
  else if strIn "github_repo" pl.component_id then "github_repo"
  else if strIn "branding" pl.component_id then "branding"
  else if strIn "quick_link" pl.component_id then "quick_link"
  else if pl.component_type == "stock" then "stock"
  else if pl.component_type == "dayNumber" then "day_number"
  else if pl.component_type == "bit" then "bit"
  else "unknown"

/-- Python `placement.data or {}`. -/
def exportData : Option DataMap → DataMap
  | none => []
  | some d => d

/-- One component of `_export_to_blueprint_format` (1-based coordinates). -/
def exportComponent (pl : Placement) : BPComponent :=
  { id := pl.component_id
    type := exportType pl
    position := { row := pl.y + 1, column := pl.x + 1, width := pl.width, height := pl.height }
    data := exportData pl.data }

/-- Value of `np.sum(placer.grid)`. -/
def npSum (p : RetryGridPlacer) : Nat :=
  ((intRange 0 p.grid_height).map fun cy =>
    ((intRange 0 p.grid_width).map fun cx => p.grid cy cx).sum).sum

/-- Round-half-to-even of `a / b` for integers (`b` positive in every use),
the rounding Python's `round` applies. -/
def rheDiv (a b : Int) : Int :=
  let f := a.fdiv b
  let r := a - b * f
  if 2 * r < b then f
  else if 2 * r > b then f + 1
  else if f % 2 = 0 then f
  else f + 1

/-- Python `round((s / total) * 100, 1)` as an exact rational (the float the
source computes is this value up to floating-point representation). -/
def round1Pct (s total : Int) : Rat :=
  ((rheDiv (1000 * s) total : Int) : Rat) / 10

/-- Method `_export_to_blueprint_format`: component list plus metadata; the
generation timestamp and the configured cell size are passed in. -/
def exportBlueprint (p : RetryGridPlacer) (generated_at : String) (cell_size : Int) :
    Blueprint :=
  { metadata :=
      { generated_at := generated_at
        columns := p.grid_width
        rows := p.grid_height
        cell_size := cell_size
        total_components := p.placements.length
        efficiency := round1Pct (npSum p) (p.grid_width * p.grid_height) }
    components := p.placements.map exportComponent }

/-- Replay part of `_load_fallback_layout` (lines 181-196): a placer with the
record's grid dimensions, then one `place_component` per recorded component
with 1-based coordinates converted back to 0-based (`data` defaults to the
empty dict via `comp_data.get('data', {})`). -/
def placerFromBlueprint (bp : Blueprint) : RetryGridPlacer :=
  bp.components.foldl
    (fun placer c =>
      (placer.place_component c.id (c.position.column - 1) (c.position.row - 1)
        c.position.width c.position.height c.type (some c.data)).2)
    (RetryGridPlacer.init bp.metadata.columns bp.metadata.rows)

/-- Method `_load_fallback_layout` with the fallback store modelled as an
optional in-memory record: `none` (missing or unreadable file) yields the
minimal fallback. -/
def loadFallback : Option Blueprint → RetryGridPlacer
  | none => minimalFallback
  | some bp => placerFromBlueprint bp

/-- Attempt loop of `_retry_placement_algorithm`: first successful attempt
index with its placer, scanning attempts `i, i+1, ...` with `n` attempts of
budget remaining. -/
def firstSuccessAux (os : Nat → Oracle) (cat : Catalog) (W H : Int) : Nat → Nat →
    Option (Nat × RetryGridPlacer)
  | 0, _ => none
  | n + 1, i =>
      match attemptOnce (os i) cat W H with
      | some p => some (i, p)
      | none => firstSuccessAux os cat W H n (i + 1)

/-- Method `_retry_placement_algorithm`: up to `max_retries` attempts (the
`for ... else` of the source); a successful attempt is followed by the three
fill passes, exhaustion takes the fallback path and skips them. Attempt `i`
draws from its own oracle `os i` (the single global RNG stream, split per
attempt). -/
def retryPlacementAlgorithm (os : Nat → Oracle) (cfg : GriddingConfig) (cat : Catalog)
    (fallbackStore : Option Blueprint) : RetryGridPlacer :=
  match firstSuccessAux os cat cfg.columns cfg.rows (effMaxRetries cfg) 0 with
  | some (i, p) => fillPasses (os i) cfg p
  | none => loadFallback fallbackStore

/-- Spec-side definition for the efficiency formula: the number of occupied
grid cells, counted over the `columns`×`rows` cell rectangle. -/
def occupiedCellCount (p : RetryGridPlacer) : Nat :=
  ((intRange 0 p.grid_height).map fun cy =>
    ((intRange 0 p.grid_width).filter fun cx => p.grid cy cx != 0).length).sum

/-- One replayed `place_component` call taking its arguments from a placement
record. -/
def replayStep (q : RetryGridPlacer) (pl : Placement) : RetryGridPlacer :=
  (q.place_component pl.component_id pl.x pl.y pl.width pl.height pl.component_type pl.data).2

/-- The placement reconstructed by the fallback loader from the exported form
of `pl`: same geometry, the exported `type` string, and the exported data. -/
def reloadPlacement (pl : Placement) : Placement :=
  ⟨pl.component_id, pl.x, pl.y, pl.width, pl.height, exportType pl, some (exportData pl.data)⟩

theorem mem_intRange {a b c : Int} : c ∈ intRange a b ↔ a ≤ c ∧ c < b := by
  unfold intRange
  simp only [List.mem_map, List.mem_range]
  constructor
  · rintro ⟨i, hi, rfl⟩
    refine ⟨by omega, by omega⟩
  · rintro ⟨h1, h2⟩
    exact ⟨(c - a).toNat, by omega, by omega⟩

theorem intRange_nodup (a b : Int) : (intRange a b).Nodup := by
  unfold intRange
  exact (List.nodup_range _).map (fun i j hij => by omega)

theorem can_place_iff (p : RetryGridPlacer) (x y width height : Int) :
    p.can_place x y width height = true ↔
      x + width ≤ p.grid_width ∧ y + height ≤ p.grid_height ∧ 0 ≤ x ∧ 0 ≤ y ∧
        ∀ cy cx : Int, y ≤ cy → cy < y + height → x ≤ cx → cx < x + width →
          p.grid cy cx = 0 := by
  unfold RetryGridPlacer.can_place
  split
  · next h =>
    simp only [Bool.false_eq_true, false_iff]
    omega
  · next h =>
    split
    · next h2 =>
      simp only [Bool.false_eq_true, false_iff]
      omega
    · next h2 =>
      push_neg at h h2
      simp only [List.all_eq_true, beq_iff_eq]
      constructor
      · intro hall
        refine ⟨by omega, by omega, by omega, by omega, ?_⟩
        intro cy cx h1 h3 h4 h5
        exact hall cy (mem_intRange.mpr ⟨h1, h3⟩) cx (mem_intRange.mpr ⟨h4, h5⟩)
      · rintro ⟨-, -, -, -, hall⟩ cy hcy cx hcx
        rw [mem_intRange] at hcy hcx
        exact hall cy cx hcy.1 hcy.2 hcx.1 hcx.2

theorem place_component_of_invalid (p : RetryGridPlacer) (cid : String)
    (x y width height : Int) (t : String) (d : Option DataMap)
    (h : p.can_place x y width height = false) :
    p.place_component cid x y width height t d = (false, p) := by
  simp [RetryGridPlacer.place_component, h]

theorem place_component_of_valid (p : RetryGridPlacer) (cid : String)
    (x y width height : Int) (t : String) (d : Option DataMap)
    (h : p.can_place x y width height = true) :
    p.place_component cid x y width height t d =
      (true,
        { p with
          grid := fun cy cx =>
            if y ≤ cy ∧ cy < y + height ∧ x ≤ cx ∧ cx < x + width then 1 else p.grid cy cx
          placements :=
            p.placements ++ [⟨cid, x, y, width, height, t, d⟩] }) := by
  simp [RetryGridPlacer.place_component, h]

theorem place_component_dims (p : RetryGridPlacer) (cid : String)
    (x y width height : Int) (t : String) (d : Option DataMap) :
    (p.place_component cid x y width height t d).2.grid_width = p.grid_width ∧
      (p.place_component cid x y width height t d).2.grid_height = p.grid_height := by
  unfold RetryGridPlacer.place_component
  split <;> simp

theorem rectsDisjoint_iff (x y w h x' y' w' h' : Int) :
    rectsDisjoint x y w h x' y' w' h' ↔
      w ≤ 0 ∨ h ≤ 0 ∨ w' ≤ 0 ∨ h' ≤ 0 ∨
        x + w ≤ x' ∨ x' + w' ≤ x ∨ y + h ≤ y' ∨ y' + h' ≤ y := by
  constructor
  · intro hd
    by_contra hc
    push_neg at hc
    obtain ⟨hw, hh, hw', hh', h1, h2, h3, h4⟩ := hc
    exact hd (max y y') (max x x')
      ⟨⟨le_max_left _ _, max_lt (by omega) (by omega),
        le_max_left _ _, max_lt (by omega) (by omega)⟩,
       ⟨le_max_right _ _, max_lt (by omega) (by omega),
        le_max_right _ _, max_lt (by omega) (by omega)⟩⟩
  · rintro h cy cx ⟨⟨a1, a2, a3, a4⟩, b1, b2, b3, b4⟩
    omega

theorem invariant_init (W H : Int) : PlacerInvariant (RetryGridPlacer.init W H) := by
  constructor
  · intro pl h
    simp [RetryGridPlacer.init] at h
  · exact List.Pairwise.nil
  · intro cy cx
    right
    exact ⟨rfl, by simp [RetryGridPlacer.init]⟩

theorem place_preserves_invariant (p : RetryGridPlacer) (hinv : PlacerInvariant p)
    (cid : String) (x y width height : Int) (t : String) (d : Option DataMap) :
    PlacerInvariant (p.place_component cid x y width height t d).2 := by
  by_cases hc : p.can_place x y width height = true
  · rw [place_component_of_valid _ _ _ _ _ _ _ _ hc]
    obtain ⟨hW, hH, hx, hy, hfree⟩ := (can_place_iff _ _ _ _ _).mp hc
    constructor
    · intro pl hpl
      rcases List.mem_append.mp hpl with h | h
      · exact hinv.bounds pl h
      · simp only [List.mem_singleton] at h
        subst h
        exact ⟨hx, hy, hW, hH⟩
    · rw [List.pairwise_append]
      refine ⟨hinv.disjoint, List.pairwise_singleton _ _, ?_⟩
      intro a ha b hb
      simp only [List.mem_singleton] at hb
      subst hb
      intro cy cx hcc
      obtain ⟨hca, hcb⟩ := hcc
      rcases hinv.occupancy cy cx with ⟨h1, -⟩ | ⟨h0, hnone⟩
      · have hz := hfree cy cx hcb.1 hcb.2.1 hcb.2.2.1 hcb.2.2.2
        omega
      · exact hnone a ha hca
    · intro cy cx
      by_cases hcell : y ≤ cy ∧ cy < y + height ∧ x ≤ cx ∧ cx < x + width
      · left
        exact ⟨by simp [hcell], ⟨cid, x, y, width, height, t, d⟩, by simp, hcell⟩
      · rcases hinv.occupancy cy cx with ⟨h1, pl, hpl, hcov⟩ | ⟨h0, hnone⟩
        · left
          exact ⟨by simp [hcell, h1], pl, List.mem_append_left _ hpl, hcov⟩
        · right
          refine ⟨by simp [hcell, h0], ?_⟩
          intro pl hpl
          rcases List.mem_append.mp hpl with h | h
          · exact hnone pl h
          · simp only [List.mem_singleton] at h
            subst h
            exact fun hcov => hcell hcov
  · rw [Bool.not_eq_true] at hc
    rw [place_component_of_invalid _ _ _ _ _ _ _ _ hc]
    exact hinv

theorem can_place_of_free (p : RetryGridPlacer) (hinv : PlacerInvariant p) (pl : Placement)
    (hb : placementInBounds p.grid_width p.grid_height pl)
    (hd : ∀ q ∈ p.placements, placementsDisjoint q pl) :
    p.can_place pl.x pl.y pl.width pl.height = true := by
  rw [can_place_iff]
  obtain ⟨hx, hy, hW, hH⟩ := hb
  refine ⟨hW, hH, hx, hy, ?_⟩
  intro cy cx h1 h2 h3 h4
  rcases hinv.occupancy cy cx with ⟨hg, q, hq, hcov⟩ | ⟨hg, -⟩
  · exact absurd ⟨hcov, h1, h2, h3, h4⟩ (hd q hq cy cx)
  · exact hg

theorem invariant_applyCalls (p : RetryGridPlacer) (hinv : PlacerInvariant p)
    (calls : List PlaceCall) : PlacerInvariant (applyCalls p calls) := by
  induction calls generalizing p with
  | nil => exact hinv
  | cons c cs ih =>
    exact ih _ (place_preserves_invariant p hinv c.component_id c.x c.y c.width c.height
      c.component_type c.data)

theorem applyCalls_dims (p : RetryGridPlacer) (calls : List PlaceCall) :
    (applyCalls p calls).grid_width = p.grid_width ∧
      (applyCalls p calls).grid_height = p.grid_height := by
  induction calls generalizing p with
  | nil => exact ⟨rfl, rfl⟩
  | cons c cs ih =>
    have h1 := place_component_dims p c.component_id c.x c.y c.width c.height
      c.component_type c.data
    have h2 := ih (applyCall p c)
    exact ⟨h2.1.trans h1.1, h2.2.trans h1.2⟩

theorem countP_covers_le_one (l : List Placement) (hp : l.Pairwise placementsDisjoint)
    (cy cx : Int) : l.countP (fun pl => decide (pl.covers cy cx)) ≤ 1 := by
  induction l with
  | nil => simp
  | cons a l ih =>
    rw [List.pairwise_cons] at hp
    by_cases hca : a.covers cy cx
    · rw [List.countP_cons_of_pos _ _ (by simpa using hca)]
      have hz : l.countP (fun pl => decide (pl.covers cy cx)) = 0 := by
        rw [List.countP_eq_zero]
        intro b hb
        simp only [decide_eq_true_eq]
        intro hcb
        exact hp.1 b hb cy cx ⟨hca, hcb⟩
      omega
    · rw [List.countP_cons_of_neg _ _ (by simpa using hca)]
      exact ih hp.2

theorem mem_get_available_positions (p : RetryGridPlacer) (width height : Int) (a b : Int) :
    (a, b) ∈ p.get_available_positions width height ↔ p.can_place a b width height = true := by
  unfold RetryGridPlacer.get_available_positions
  simp only [List.mem_flatMap, List.mem_map, List.mem_filter, mem_intRange]
  constructor
  · rintro ⟨y, hy, x, ⟨⟨hx, hc⟩, hxy⟩⟩
    obtain ⟨rfl, rfl⟩ := Prod.mk.injEq .. |>.mp hxy
    exact hc
  · intro hc
    obtain ⟨hW, hH, hx, hy, -⟩ := (can_place_iff _ _ _ _ _).mp hc
    exact ⟨b, ⟨by omega, by omega⟩, a, ⟨⟨by omega, hc⟩, rfl⟩⟩

theorem get_available_positions_nodup (p : RetryGridPlacer) (width height : Int) :
    (p.get_available_positions width height).Nodup := by
  unfold RetryGridPlacer.get_available_positions
  rw [List.nodup_flatMap]
  constructor
  · intro y hy
    exact (((intRange_nodup _ _).filter _).map (fun x x' hxx => by
      simpa using congrArg Prod.fst hxx))
  · have hnd := intRange_nodup (0 : Int) (p.grid_height - height + 1)
    refine hnd.imp ?_
    intro y y' hne
    intro pos h1 h2
    simp only [Function.onFun, List.mem_map, List.mem_filter] at h1 h2
    obtain ⟨x1, -, rfl⟩ := h1
    obtain ⟨x2, -, heq⟩ := h2
    exact hne (by simpa using congrArg Prod.snd heq.symm)

/-- C4: `place_component` re-validates via `can_place`; if `can_place` is
false it returns `false` and leaves both the occupancy grid and the placement
list completely unchanged; if `can_place` is true it marks exactly the covered
`width`×`height` cells occupied, appends exactly one `Placement` recording the
arguments, and returns `true`. -/
theorem place_component_correct (p : RetryGridPlacer) (cid : String)
    (x y width height : Int) (t : String) (d : Option DataMap) :
    (p.can_place x y width height = false →
        p.place_component cid x y width height t d = (false, p)) ∧
      (p.can_place x y width height = true →
        (p.place_component cid x y width height t d).1 = true ∧
          (p.place_component cid x y width height t d).2.placements =
            p.placements ++ [⟨cid, x, y, width, height, t, d⟩] ∧
          (∀ cy cx : Int,
            (p.place_component cid x y width height t d).2.grid cy cx =
              if inRect x y width height cy cx then 1 else p.grid cy cx) ∧
          (p.place_component cid x y width height t d).2.grid_width = p.grid_width ∧
          (p.place_component cid x y width height t d).2.grid_height = p.grid_height) := by
  constructor
  · intro h
    exact place_component_of_invalid p cid x y width height t d h
  · intro h
    rw [place_component_of_valid p cid x y width height t d h]
    refine ⟨rfl, rfl, fun cy cx => ?_, rfl, rfl⟩
    by_cases hcell : inRect x y width height cy cx
    · simp only [if_pos hcell]
      unfold inRect at hcell
      simp [hcell]
    · simp only [if_neg hcell]
      unfold inRect at hcell
      simp [hcell]

/-- Witness for C4: a concrete successful placement appends exactly one
placement record. -/
theorem place_component_correct_witness :
    ((RetryGridPlacer.init 3 3).place_component "a" 0 0 2 2 "t" none).2.placements =
      [⟨"a", 0, 0, 2, 2, "t", none⟩] := by
  have h := place_component_correct (RetryGridPlacer.init 3 3) "a" 0 0 2 2 "t" none
  have h2 := (h.2 (by decide)).2.1
  simpa [RetryGridPlacer.init] using h2

/-- C1: every grid built from a fresh `RetryGridPlacer` by any sequence of
`place_component` calls satisfies: every placement lies within bounds
(`0 ≤ x`, `0 ≤ y`, `x+width ≤ columns`, `y+height ≤ rows`), no two
placements' rectangles intersect, and a grid cell is marked occupied iff it
is covered by exactly one placement. -/
theorem placement_grid_invariant (W H : Int) (calls : List PlaceCall) :
    (∀ pl ∈ (applyCalls (RetryGridPlacer.init W H) calls).placements,
        0 ≤ pl.x ∧ 0 ≤ pl.y ∧ pl.x + pl.width ≤ W ∧ pl.y + pl.height ≤ H) ∧
      (applyCalls (RetryGridPlacer.init W H) calls).placements.Pairwise placementsDisjoint ∧
      ∀ cy cx : Int,
        (applyCalls (RetryGridPlacer.init W H) calls).grid cy cx ≠ 0 ↔
          (applyCalls (RetryGridPlacer.init W H) calls).placements.countP
              (fun pl => decide (pl.covers cy cx)) = 1 := by
  have hinv := invariant_applyCalls _ (invariant_init W H) calls
  have hdims := applyCalls_dims (RetryGridPlacer.init W H) calls
  have hW : (applyCalls (RetryGridPlacer.init W H) calls).grid_width = W := hdims.1.trans rfl
  have hH : (applyCalls (RetryGridPlacer.init W H) calls).grid_height = H := hdims.2.trans rfl
  refine ⟨?_, hinv.disjoint, ?_⟩
  · intro pl hpl
    have hb := hinv.bounds pl hpl
    rw [hW, hH] at hb
    exact hb
  · intro cy cx
    rcases hinv.occupancy cy cx with ⟨h1, pl, hpl, hcov⟩ | ⟨h0, hnone⟩
    · constructor
      · rintro -
        have hle := countP_covers_le_one _ hinv.disjoint cy cx
        have hpos : 0 < (applyCalls (RetryGridPlacer.init W H) calls).placements.countP
            (fun pl => decide (pl.covers cy cx)) :=
          List.countP_pos_iff.mpr ⟨pl, hpl, by simpa using hcov⟩
        omega
      · rintro -
        omega
    · have hz : (applyCalls (RetryGridPlacer.init W H) calls).placements.countP
          (fun pl => decide (pl.covers cy cx)) = 0 := by
        rw [List.countP_eq_zero]
        intro b hb
        simpa using hnone b hb
      constructor
      · intro hne
        exact absurd h0 hne
      · intro h1
        omega

/-- Witness for C1: on a concrete call sequence whose second call overlaps the
first, the occupied cell (0,0) is covered by exactly one placement. -/
theorem placement_grid_invariant_witness :
    (applyCalls (RetryGridPlacer.init 4 4)
        [⟨"a", 0, 0, 2, 2, "t", none⟩, ⟨"b", 1, 1, 2, 2, "t", none⟩]).placements.countP
        (fun pl => decide (pl.covers 0 0)) = 1 :=
  ((placement_grid_invariant 4 4
      [⟨"a", 0, 0, 2, 2, "t", none⟩, ⟨"b", 1, 1, 2, 2, "t", none⟩]).2.2 0 0).mp (by decide)

/-- C10: the minimal fallback attempts three hardcoded placements, but the
`quick_link_1` rectangle at (0,2) size 6×1 intersects the `headline_1`
rectangle at (2,0) size 5×4 and is rejected by `place_component`; the
returned 12×16 layout holds exactly the two placements `branding_1` and
`headline_1` and still satisfies the no-overlap invariant. -/
theorem minimal_fallback_spec :
    minimalFallback.grid_width = 12 ∧ minimalFallback.grid_height = 16 ∧
      minimalFallback.placements =
        [⟨"branding_1", 0, 0, 2, 2, "branding", none⟩,
         ⟨"headline_1", 2, 0, 5, 4, "headline", none⟩] ∧
      ((((RetryGridPlacer.init 12 16).place_component "branding_1" 0 0 2 2 "branding"
            none).2.place_component "headline_1" 2 0 5 4 "headline"
            none).2.can_place 0 2 6 1 = false) ∧
      minimalFallback.placements.Pairwise placementsDisjoint := by
  decide

theorem place_component_fst (p : RetryGridPlacer) (cid : String) (x y width height : Int)
    (t : String) (d : Option DataMap) :
    (p.place_component cid x y width height t d).1 = p.can_place x y width height := by
  by_cases hc : p.can_place x y width height = true
  · rw [place_component_of_valid p cid x y width height t d hc, hc]
  · rw [Bool.not_eq_true] at hc
    rw [place_component_of_invalid p cid x y width height t d hc, hc]

theorem place_component_snd_placements (p : RetryGridPlacer) (cid : String)
    (x y width height : Int) (t : String) (d : Option DataMap)
    (h : (p.place_component cid x y width height t d).1 = true) :
    (p.place_component cid x y width height t d).2.placements =
      p.placements ++ [⟨cid, x, y, width, height, t, d⟩] := by
  rw [place_component_fst] at h
  rw [place_component_of_valid p cid x y width height t d h]

theorem place_component_snd_of_failed (p : RetryGridPlacer) (cid : String)
    (x y width height : Int) (t : String) (d : Option DataMap)
    (h : (p.place_component cid x y width height t d).1 = false) :
    (p.place_component cid x y width height t d).2 = p := by
  rw [place_component_fst] at h
  rw [place_component_of_invalid p cid x y width height t d h]

theorem getRandomPosition_some (o : Oracle) (p : RetryGridPlacer) (width height : Int)
    (k : Nat) (pos : Int × Int) (k1 : Nat)
    (hg : getRandomPosition o p width height k = some (pos, k1)) :
    k1 = k + 1 ∧ pos ∈ p.get_available_positions width height := by
  unfold getRandomPosition at hg
  cases hps : p.get_available_positions width height with
  | nil =>
    rw [hps] at hg
    simp at hg
  | cons a as =>
    rw [hps] at hg
    simp only [List.isEmpty_cons, Bool.false_eq_true, if_false] at hg
    obtain ⟨h1, h2⟩ := Prod.mk.injEq .. |>.mp (Option.some.injEq .. |>.mp hg)
    have hlt : o.randPos k % (a :: as).length < (a :: as).length :=
      Nat.mod_lt _ (by simp)
    refine ⟨h2.symm, ?_⟩
    rw [← h1, List.getD_eq_getElem _ _ hlt]
    exact List.getElem_mem hlt

theorem brandingLoop_placements (o : Oracle) (insts : List CInstance)
    (p : RetryGridPlacer) (k : Nat) (p' : RetryGridPlacer) (k' : Nat)
    (h : brandingLoop o insts p k = some (p', k')) :
    ∃ added : List Placement,
      p'.placements = p.placements ++ added ∧
        added.map Placement.component_id = insts.map CInstance.id ∧
        ∀ pl ∈ added, pl.component_type = "branding" := by
  induction insts generalizing p k with
  | nil =>
    rw [brandingLoop] at h
    obtain ⟨h1, -⟩ := Prod.mk.injEq .. |>.mp (Option.some.injEq .. |>.mp h)
    subst h1
    exact ⟨[], by simp, by simp, by simp⟩
  | cons inst rest ih =>
    rw [brandingLoop] at h
    cases hg : getRandomPosition o p inst.width inst.height k with
    | none =>
      rw [hg] at h
      simp at h
    | some v =>
      obtain ⟨⟨x, y⟩, k1⟩ := v
      rw [hg] at h
      simp only at h
      split at h
      · next hr =>
        obtain ⟨added, ha1, ha2, ha3⟩ := ih _ _ h
        refine ⟨⟨inst.id, x, y, inst.width, inst.height, "branding", none⟩ :: added, ?_, ?_, ?_⟩
        · rw [ha1, place_component_snd_placements _ _ _ _ _ _ _ _ hr]
          simp
        · simpa using ha2
        · intro pl hpl
          rcases List.mem_cons.mp hpl with hpl | hpl
          · subst hpl
            rfl
          · exact ha3 pl hpl
      · simp at h

theorem tryItem_placements (o : Oracle) (inst : CInstance) (fuel : Nat)
    (p : RetryGridPlacer) (k : Nat) (p' : RetryGridPlacer) (k' : Nat)
    (h : tryItem o inst fuel p k = some (p', k')) :
    (∃ x y : Int,
        p'.placements = p.placements ++ [⟨inst.id, x, y, inst.width, inst.height, "fixed", none⟩]) ∧
      k ≤ k' ∧ k' ≤ k + fuel := by
  induction fuel generalizing p k with
  | zero =>
    rw [tryItem] at h
    simp at h
  | succ n ih =>
    rw [tryItem] at h
    cases hg : getRandomPosition o p inst.width inst.height k with
    | none =>
      rw [hg] at h
      obtain ⟨hx, h2, h3⟩ := ih _ _ h
      exact ⟨hx, by omega, by omega⟩
    | some v =>
      obtain ⟨⟨x, y⟩, k1⟩ := v
      rw [hg] at h
      have hk1 := (getRandomPosition_some o p inst.width inst.height k (x, y) k1 hg).1
      simp only at h
      split at h
      · next hr =>
        obtain ⟨h1, h2⟩ := Prod.mk.injEq .. |>.mp (Option.some.injEq .. |>.mp h)
        subst h1
        refine ⟨⟨x, y, place_component_snd_placements _ _ _ _ _ _ _ _ hr⟩, by omega, by omega⟩
      · next hr =>
        rw [Bool.not_eq_true] at hr
        rw [place_component_snd_of_failed _ _ _ _ _ _ _ _ hr] at h
        obtain ⟨hx, h2, h3⟩ := ih _ _ h
        exact ⟨hx, by omega, by omega⟩

theorem worklistLoop_placements (o : Oracle) (insts : List CInstance)
    (p : RetryGridPlacer) (k : Nat) (p' : RetryGridPlacer) (k' : Nat)
    (h : worklistLoop o insts p k = some (p', k')) :
    ∃ added : List Placement,
      p'.placements = p.placements ++ added ∧
        added.map Placement.component_id = insts.map CInstance.id ∧
        ∀ pl ∈ added, pl.component_type = "fixed" := by
  induction insts generalizing p k with
  | nil =>
    rw [worklistLoop] at h
    obtain ⟨h1, -⟩ := Prod.mk.injEq .. |>.mp (Option.some.injEq .. |>.mp h)
    subst h1
    exact ⟨[], by simp, by simp, by simp⟩
  | cons inst rest ih =>
    rw [worklistLoop] at h
    cases ht : tryItem o inst 10 p k with
    | none =>
      rw [ht] at h
      simp at h
    | some v =>
      obtain ⟨p1, k1⟩ := v
      rw [ht] at h
      obtain ⟨⟨x, y, hxy⟩, -, -⟩ := tryItem_placements o inst 10 p k p1 k1 ht
      obtain ⟨added, ha1, ha2, ha3⟩ := ih _ _ h
      refine ⟨⟨inst.id, x, y, inst.width, inst.height, "fixed", none⟩ :: added, ?_, ?_, ?_⟩
      · rw [ha1, hxy]
        simp
      · simpa using ha2
      · intro pl hpl
        rcases List.mem_cons.mp hpl with hpl | hpl
        · subst hpl
          rfl
        · exact ha3 pl hpl

/-- C3: within one attempt, all branding instances are placed first (the
leading placements carry type `branding` and the placement ids are exactly
the branding ids followed by the shuffled worklist ids); a branding failure
or a worklist item whose 10 draws all fail aborts the entire attempt; the
attempt succeeds iff the branding phase and every worklist item succeed; and
one worklist item consumes at most 10 random position draws. -/
theorem attempt_once_spec (o : Oracle) (cat : Catalog) (W H : Int) :
    (∀ p, attemptOnce o cat W H = some p →
        p.placements.map Placement.component_id =
          (brandingInstances cat).map CInstance.id ++
            (o.shuffle (buildWorklist o cat)).map CInstance.id ∧
          ∀ pl ∈ p.placements.take (brandingInstances cat).length,
            pl.component_type = "branding") ∧
      (brandingLoop o (brandingInstances cat) (RetryGridPlacer.init W H) 0 = none →
        attemptOnce o cat W H = none) ∧
      (∀ p1 k1,
        brandingLoop o (brandingInstances cat) (RetryGridPlacer.init W H) 0 = some (p1, k1) →
        worklistLoop o (o.shuffle (buildWorklist o cat)) p1 k1 = none →
        attemptOnce o cat W H = none) ∧
      (∀ p1 k1 p2 k2,
        brandingLoop o (brandingInstances cat) (RetryGridPlacer.init W H) 0 = some (p1, k1) →
        worklistLoop o (o.shuffle (buildWorklist o cat)) p1 k1 = some (p2, k2) →
        attemptOnce o cat W H = some p2) ∧
      (∀ inst p k p' k', tryItem o inst 10 p k = some (p', k') → k' ≤ k + 10) := by
  refine ⟨?_, ?_, ?_, ?_, ?_⟩
  · intro p hp
    cases hb : brandingLoop o (brandingInstances cat) (RetryGridPlacer.init W H) 0 with
    | none =>
      have hn : attemptOnce o cat W H = none := by
        simp only [attemptOnce, hb]
      rw [hn] at hp
      simp at hp
    | some v1 =>
      obtain ⟨p1, k1⟩ := v1
      cases hw : worklistLoop o (o.shuffle (buildWorklist o cat)) p1 k1 with
      | none =>
        have hn : attemptOnce o cat W H = none := by
          simp only [attemptOnce, hb, hw]
        rw [hn] at hp
        simp at hp
      | some v2 =>
        obtain ⟨p2, k2⟩ := v2
        have h4 : attemptOnce o cat W H = some p2 := by
          simp only [attemptOnce, hb, hw]
        rw [hp] at h4
        simp only [Option.some.injEq] at h4
        subst h4
        obtain ⟨addedB, hb1, hb2, hb3⟩ :=
          brandingLoop_placements o (brandingInstances cat) _ 0 p1 k1 hb
        obtain ⟨addedW, hw1, hw2, hw3⟩ :=
          worklistLoop_placements o (o.shuffle (buildWorklist o cat)) p1 k1 p k2 hw
        have hinit : (RetryGridPlacer.init W H).placements = [] := rfl
        rw [hinit, List.nil_append] at hb1
        have hall : p.placements = addedB ++ addedW := by
          rw [hw1, hb1]
        constructor
        · rw [hall, List.map_append, hb2, hw2]
        · intro pl hpl
          have hlen : addedB.length = (brandingInstances cat).length := by
            have := congrArg List.length hb2
            simpa using this
          rw [hall, List.take_left' hlen] at hpl
          exact hb3 pl hpl
  · intro hb
    simp only [attemptOnce, hb]
  · intro p1 k1 hb hw
    simp only [attemptOnce, hb, hw]
  · intro p1 k1 p2 k2 hb hw
    simp only [attemptOnce, hb, hw]
  · intro inst p k p' k' h
    exact (tryItem_placements o inst 10 p k p' k' h).2.2

/-- Witness for C3: a concrete attempt (4×4 grid, one 2×2 branding instance,
one 2×1 headline instance, identity shuffle, all draws at index 0) succeeds
and its placement ids are the branding id followed by the worklist id. -/
theorem attempt_once_spec_witness :
    Option.map (fun p => p.placements.map Placement.component_id)
        (attemptOnce ⟨fun _ => 0, fun _ => 0, fun l => l, fun _ => 0⟩
          ⟨[⟨"branding", 2, 2, 1, false, 1⟩, ⟨"headline", 2, 1, 1, false, 2⟩], []⟩ 4 4) =
      some ["branding_1", "headline_1"] := by
  cases hE : attemptOnce ⟨fun _ => 0, fun _ => 0, fun l => l, fun _ => 0⟩
      ⟨[⟨"branding", 2, 2, 1, false, 1⟩, ⟨"headline", 2, 1, 1, false, 2⟩], []⟩ 4 4 with
  | none =>
    have hs : (attemptOnce ⟨fun _ => 0, fun _ => 0, fun l => l, fun _ => 0⟩
        ⟨[⟨"branding", 2, 2, 1, false, 1⟩, ⟨"headline", 2, 1, 1, false, 2⟩], []⟩ 4 4).isSome
          = true := by decide
    rw [hE] at hs
    simp at hs
  | some p =>
    have h := ((attempt_once_spec ⟨fun _ => 0, fun _ => 0, fun l => l, fun _ => 0⟩
        ⟨[⟨"branding", 2, 2, 1, false, 1⟩, ⟨"headline", 2, 1, 1, false, 2⟩], []⟩ 4 4).1 p hE).1
    have hm : Option.map (fun q : RetryGridPlacer => List.map Placement.component_id q.placements)
        (some p) = some (List.map Placement.component_id p.placements) := rfl
    rw [hm, h]
    decide

theorem firstSuccessAux_none (os : Nat → Oracle) (cat : Catalog) (W H : Int) (n i : Nat)
    (hfail : ∀ k, i ≤ k → k < i + n → (attemptOnce (os k) cat W H).isNone = true) :
    firstSuccessAux os cat W H n i = none := by
  induction n generalizing i with
  | zero => rfl
  | succ m ih =>
    cases ha : attemptOnce (os i) cat W H with
    | some p =>
      have hcon := hfail i (le_refl i) (by omega)
      rw [ha] at hcon
      simp at hcon
    | none =>
      simp only [firstSuccessAux, ha]
      exact ih (i + 1) (fun k h1 h2 => hfail k (by omega) (by omega))

theorem firstSuccessAux_found (os : Nat → Oracle) (cat : Catalog) (W H : Int)
    (n i k : Nat) (p : RetryGridPlacer) (hik : i ≤ k) (hkn : k < i + n)
    (hfail : ∀ j, i ≤ j → j < k → (attemptOnce (os j) cat W H).isNone = true)
    (hsucc : attemptOnce (os k) cat W H = some p) :
    firstSuccessAux os cat W H n i = some (k, p) := by
  induction n generalizing i with
  | zero => omega
  | succ m ih =>
    by_cases hi : i = k
    · subst hi
      simp only [firstSuccessAux, hsucc]
    · have h1 : (attemptOnce (os i) cat W H).isNone = true := hfail i le_rfl (by omega)
      cases ha : attemptOnce (os i) cat W H with
      | some q =>
        rw [ha] at h1
        simp at h1
      | none =>
        simp only [firstSuccessAux, ha]
        exact ih (i + 1) (by omega) (by omega) (fun j hj1 hj2 => hfail j (by omega) hj2)

/-- C2: the retry orchestrator runs at most `max_retries` attempts (500 when
the configuration omits `max_retries`), exits on the first successful attempt
(whose placer then feeds the fill passes), on exhaustion of all attempts
returns the layout loaded from the fallback record, and returns the
hand-built minimal layout when the record is missing or unreadable; being a
total function into placers, it returns some layout in every case and never
propagates a no-layout error. -/
theorem retry_orchestrator_spec (os : Nat → Oracle) (cfg : GriddingConfig) (cat : Catalog)
    (fb : Option Blueprint) :
    (cfg.max_retries = none → effMaxRetries cfg = 500) ∧
      ((∀ k, k < effMaxRetries cfg →
          (attemptOnce (os k) cat cfg.columns cfg.rows).isNone = true) →
        retryPlacementAlgorithm os cfg cat fb = loadFallback fb) ∧
      (∀ k p, k < effMaxRetries cfg →
        (∀ j, j < k → (attemptOnce (os j) cat cfg.columns cfg.rows).isNone = true) →
        attemptOnce (os k) cat cfg.columns cfg.rows = some p →
        retryPlacementAlgorithm os cfg cat fb = fillPasses (os k) cfg p) ∧
      loadFallback none = minimalFallback := by
  refine ⟨?_, ?_, ?_, rfl⟩
  · intro h
    rw [effMaxRetries, h]
    rfl
  · intro hfail
    unfold retryPlacementAlgorithm
    rw [firstSuccessAux_none os cat cfg.columns cfg.rows _ 0
      (fun k h1 h2 => hfail k (by omega))]
  · intro k p hk hfail hsucc
    unfold retryPlacementAlgorithm
    rw [firstSuccessAux_found os cat cfg.columns cfg.rows _ 0 k p (by omega) (by omega)
      (fun j h1 h2 => hfail j h2) hsucc]

/-- Witness for C2: with a 2×2 grid, one 3×3 branding instance, a retry
budget of 1 and no fallback record, the orchestrator returns the minimal
layout. -/
theorem retry_orchestrator_spec_witness :
    retryPlacementAlgorithm (fun _ => ⟨fun _ => 0, fun _ => 0, fun l => l, fun _ => 0⟩)
        ⟨2, 2, some 1, false, 0, false, false⟩
        ⟨[⟨"branding", 3, 3, 1, false, 1⟩], []⟩ none = minimalFallback := by
  have h := retry_orchestrator_spec (fun _ => ⟨fun _ => 0, fun _ => 0, fun l => l, fun _ => 0⟩)
    ⟨2, 2, some 1, false, 0, false, false⟩ ⟨[⟨"branding", 3, 3, 1, false, 1⟩], []⟩ none
  exact (h.2.1 (by decide)).trans h.2.2.2

/-- C8: when the orchestrator exhausts its retry budget, the returned layout
is exactly the fallback reconstruction — the stock, day-number and bit fill
passes are not applied: with a fallback record its placements are exactly
those replayed from the record, and with no record the result is exactly the
minimal layout. -/
theorem fallback_path_skips_fill (os : Nat → Oracle) (cfg : GriddingConfig) (cat : Catalog)
    (fb : Option Blueprint)
    (hfail : ∀ k, k < effMaxRetries cfg →
      (attemptOnce (os k) cat cfg.columns cfg.rows).isNone = true) :
    retryPlacementAlgorithm os cfg cat fb = loadFallback fb ∧
      (∀ bp, fb = some bp →
        (retryPlacementAlgorithm os cfg cat fb).placements =
          (placerFromBlueprint bp).placements) ∧
      (fb = none → retryPlacementAlgorithm os cfg cat fb = minimalFallback) := by
  have h1 : retryPlacementAlgorithm os cfg cat fb = loadFallback fb := by
    unfold retryPlacementAlgorithm
    rw [firstSuccessAux_none os cat cfg.columns cfg.rows _ 0
      (fun k hk1 hk2 => hfail k (by omega))]
  refine ⟨h1, ?_, ?_⟩
  · rintro bp rfl
    rw [h1]
    rfl
  · rintro rfl
    rw [h1]
    rfl

/-- Witness for C8: exhaustion with all three fill passes enabled and a
one-component fallback record returns exactly the record's replayed
placements. -/
theorem fallback_path_skips_fill_witness :
    (retryPlacementAlgorithm (fun _ => ⟨fun _ => 0, fun _ => 0, fun l => l, fun _ => 0⟩)
        ⟨2, 2, some 1, true, 3, true, true⟩ ⟨[⟨"branding", 3, 3, 1, false, 1⟩], []⟩
        (some ⟨⟨"t", 4, 4, 32, 1, 0⟩, [⟨"headline_1", "headline", ⟨1, 1, 2, 1⟩, []⟩]⟩)).placements =
      (placerFromBlueprint
        ⟨⟨"t", 4, 4, 32, 1, 0⟩, [⟨"headline_1", "headline", ⟨1, 1, 2, 1⟩, []⟩]⟩).placements :=
  ((fallback_path_skips_fill (fun _ => ⟨fun _ => 0, fun _ => 0, fun l => l, fun _ => 0⟩)
      ⟨2, 2, some 1, true, 3, true, true⟩ ⟨[⟨"branding", 3, 3, 1, false, 1⟩], []⟩
      (some ⟨⟨"t", 4, 4, 32, 1, 0⟩, [⟨"headline_1", "headline", ⟨1, 1, 2, 1⟩, []⟩]⟩)
      (by decide)).2.1 _ rfl)

theorem can_place_after_place (p : RetryGridPlacer) (cid : String) (x y w h : Int)
    (t : String) (d : Option DataMap) (x' y' w' h' : Int)
    (hc : p.can_place x' y' w' h' = true)
    (hd : rectsDisjoint x y w h x' y' w' h') :
    (p.place_component cid x y w h t d).2.can_place x' y' w' h' = true := by
  by_cases hr : (p.place_component cid x y w h t d).1 = true
  · rw [place_component_fst] at hr
    rw [place_component_of_valid _ _ _ _ _ _ _ _ hr]
    rw [can_place_iff] at hc ⊢
    obtain ⟨h1, h2, h3, h4, hfree⟩ := hc
    refine ⟨h1, h2, h3, h4, ?_⟩
    intro cy cx hh1 hh2 hh3 hh4
    show (if y ≤ cy ∧ cy < y + h ∧ x ≤ cx ∧ cx < x + w then 1 else p.grid cy cx) = 0
    rw [if_neg]
    · exact hfree cy cx hh1 hh2 hh3 hh4
    · intro hcell
      exact hd cy cx ⟨hcell, hh1, hh2, hh3, hh4⟩
  · rw [Bool.not_eq_true] at hr
    rw [place_component_snd_of_failed _ _ _ _ _ _ _ _ hr]
    exact hc

theorem bitLoop_spec (o : Oracle) (cells : List (Int × Int)) (p : RetryGridPlacer) (i0 : Nat)
    (hfree : ∀ c ∈ cells, p.can_place c.1 c.2 1 1 = true) (hnd : cells.Nodup) :
    (bitLoop o p cells i0).placements =
        p.placements ++ ((List.enumFrom i0 cells).map fun jc =>
          (⟨"bit_" ++ toString (jc.1 + 1), jc.2.1, jc.2.2, 1, 1, "bit",
            some [("value", DVal.intVal (Int.ofNat (o.randBit jc.1 % 2)))]⟩ : Placement)) ∧
      (∀ cy cx : Int, (bitLoop o p cells i0).grid cy cx =
        if (cx, cy) ∈ cells then 1 else p.grid cy cx) ∧
      (bitLoop o p cells i0).grid_width = p.grid_width ∧
      (bitLoop o p cells i0).grid_height = p.grid_height := by
  induction cells generalizing p i0 with
  | nil =>
    exact ⟨by simp [bitLoop], fun cy cx => by simp [bitLoop], rfl, rfl⟩
  | cons c rest ih =>
    obtain ⟨x, y⟩ := c
    have hcp : p.can_place x y 1 1 = true := hfree (x, y) (List.mem_cons_self _ _)
    have hfst : (p.place_component ("bit_" ++ toString (i0 + 1)) x y 1 1 "bit"
        (some [("value", DVal.intVal (Int.ofNat (o.randBit i0 % 2)))])).1 = true := by
      rw [place_component_fst]
      exact hcp
    have hstep : bitLoop o p ((x, y) :: rest) i0 =
        bitLoop o (p.place_component ("bit_" ++ toString (i0 + 1)) x y 1 1 "bit"
          (some [("value", DVal.intVal (Int.ofNat (o.randBit i0 % 2)))])).2 rest (i0 + 1) := rfl
    have hq1 := place_component_snd_placements _ _ _ _ _ _ _ _ hfst
    have hqg : ∀ cy cx : Int,
        (p.place_component ("bit_" ++ toString (i0 + 1)) x y 1 1 "bit"
          (some [("value", DVal.intVal (Int.ofNat (o.randBit i0 % 2)))])).2.grid cy cx =
          if cy = y ∧ cx = x then 1 else p.grid cy cx := by
      intro cy cx
      rw [place_component_fst] at hfst
      rw [place_component_of_valid _ _ _ _ _ _ _ _ hfst]
      show (if y ≤ cy ∧ cy < y + 1 ∧ x ≤ cx ∧ cx < x + 1 then 1 else p.grid cy cx) = _
      by_cases hcell : cy = y ∧ cx = x
      · rw [if_pos (by omega), if_pos hcell]
      · rw [if_neg (by omega), if_neg hcell]
    have hdims := place_component_dims p ("bit_" ++ toString (i0 + 1)) x y 1 1 "bit"
      (some [("value", DVal.intVal (Int.ofNat (o.randBit i0 % 2)))])
    have hfree' : ∀ c' ∈ rest,
        (p.place_component ("bit_" ++ toString (i0 + 1)) x y 1 1 "bit"
          (some [("value", DVal.intVal (Int.ofNat (o.randBit i0 % 2)))])).2.can_place
          c'.1 c'.2 1 1 = true := by
      intro c' hc'
      have hne : c' ≠ (x, y) := by
        intro hcon
        subst hcon
        exact (List.nodup_cons.mp hnd).1 hc'
      refine can_place_after_place p _ x y 1 1 "bit" _ c'.1 c'.2 1 1
        (hfree c' (List.mem_cons_of_mem _ hc')) ?_
      rw [rectsDisjoint_iff]
      have : c'.1 ≠ x ∨ c'.2 ≠ y := by
        by_contra hcon
        push_neg at hcon
        exact hne (Prod.ext hcon.1 hcon.2)
      omega
    obtain ⟨ih1, ih2, ih3, ih4⟩ := ih _ (i0 + 1) hfree' (List.nodup_cons.mp hnd).2
    refine ⟨?_, ?_, ?_, ?_⟩
    · rw [hstep, ih1, hq1]
      simp [List.enumFrom]
    · intro cy cx
      rw [hstep, ih2 cy cx, hqg cy cx]
      by_cases hm : (cx, cy) ∈ rest
      · rw [if_pos hm, if_pos (List.mem_cons_of_mem _ hm)]
      · rw [if_neg hm]
        by_cases hcell : cy = y ∧ cx = x
        · rw [if_pos hcell, if_pos (by
            obtain ⟨rfl, rfl⟩ := hcell
            exact List.mem_cons_self _ _)]
        · rw [if_neg hcell, if_neg (by
            intro hcon
            rcases List.mem_cons.mp hcon with hcon | hcon
            · obtain ⟨h1, h2⟩ := Prod.mk.injEq .. |>.mp hcon
              exact hcell ⟨h2, h1⟩
            · exact hm hcon)]
    · rw [hstep, ih3, hdims.1]
    · rw [hstep, ih4, hdims.2]

/-- C7: with bit components enabled, the bit fill pass places exactly one bit
on every previously free 1×1 cell (no bit placement fails), and
`free_positions(1,1)` on the resulting grid is empty. -/
theorem bit_fill_saturation (o : Oracle) (cfg : GriddingConfig) (p : RetryGridPlacer)
    (hen : cfg.bit_enabled = true) :
    (bitPass o cfg p).placements =
        p.placements ++ ((List.enumFrom 0 p.find_single_cells).map fun jc =>
          (⟨"bit_" ++ toString (jc.1 + 1), jc.2.1, jc.2.2, 1, 1, "bit",
            some [("value", DVal.intVal (Int.ofNat (o.randBit jc.1 % 2)))]⟩ : Placement)) ∧
      (bitPass o cfg p).find_single_cells = [] := by
  have hpass : bitPass o cfg p = bitLoop o p p.find_single_cells 0 := by
    unfold bitPass
    rw [hen]
    rfl
  have hfree : ∀ c ∈ p.find_single_cells, p.can_place c.1 c.2 1 1 = true := by
    intro c hc
    obtain ⟨a, b⟩ := c
    exact (mem_get_available_positions p 1 1 a b).mp hc
  have hnd := get_available_positions_nodup p 1 1
  obtain ⟨h1, h2, h3, h4⟩ := bitLoop_spec o p.find_single_cells p 0 hfree hnd
  refine ⟨by rw [hpass, h1], ?_⟩
  rw [hpass]
  rw [List.eq_nil_iff_forall_not_mem]
  intro pos hpos
  obtain ⟨a, b⟩ := pos
  rw [RetryGridPlacer.find_single_cells,
    mem_get_available_positions, can_place_iff] at hpos
  obtain ⟨hb1, hb2, hb3, hb4, hcell⟩ := hpos
  have hc := hcell b a (by omega) (by omega) (by omega) (by omega)
  rw [h2 b a] at hc
  by_cases hmem : (a, b) ∈ p.find_single_cells
  · rw [if_pos hmem] at hc
    exact absurd hc (by omega)
  · rw [if_neg hmem] at hc
    apply hmem
    rw [RetryGridPlacer.find_single_cells, mem_get_available_positions, can_place_iff]
    rw [h3] at hb1
    rw [h4] at hb2
    refine ⟨hb1, hb2, hb3, hb4, ?_⟩
    intro cy cx hh1 hh2 hh3 hh4
    have heq : cy = b ∧ cx = a := by omega
    obtain ⟨rfl, rfl⟩ := heq
    exact hc

/-- Witness for C7: the bit pass on a concrete 3×2 grid leaves no free single
cell. -/
theorem bit_fill_saturation_witness :
    (bitPass ⟨fun _ => 0, fun _ => 0, fun l => l, fun _ => 0⟩
        ⟨3, 2, none, false, 0, false, true⟩
        (RetryGridPlacer.init 3 2)).find_single_cells = [] :=
  (bit_fill_saturation ⟨fun _ => 0, fun _ => 0, fun l => l, fun _ => 0⟩
    ⟨3, 2, none, false, 0, false, true⟩ (RetryGridPlacer.init 3 2) rfl).2

theorem stockLoop_disjoint_spec (spaces : List (Int × Int)) (p : RetryGridPlacer)
    (i0 placed maxS : Nat)
    (hfree : ∀ s ∈ spaces, p.can_place s.1 s.2 2 2 = true)
    (hdisj : spaces.Pairwise fun a b => rectsDisjoint a.1 a.2 2 2 b.1 b.2 2 2) :
    (stockLoop p spaces i0 placed maxS).placements =
      p.placements ++ ((List.enumFrom i0 (spaces.take (maxS - placed))).map fun js =>
        (⟨"stock_" ++ toString (js.1 + 1), js.2.1, js.2.2, 2, 2, "stock",
          some (stockData js.1)⟩ : Placement)) := by
  induction spaces generalizing p i0 placed with
  | nil => simp [stockLoop]
  | cons s rest ih =>
    obtain ⟨x, y⟩ := s
    by_cases hstop : placed ≥ maxS
    · have hz : maxS - placed = 0 := by omega
      rw [stockLoop]
      rw [if_pos hstop, hz]
      simp
    · have hcp : p.can_place x y 2 2 = true := hfree (x, y) (List.mem_cons_self _ _)
      have hfst : (p.place_component ("stock_" ++ toString (i0 + 1)) x y 2 2 "stock"
          (some (stockData i0))).1 = true := by
        rw [place_component_fst]
        exact hcp
      have hstep : stockLoop p ((x, y) :: rest) i0 placed maxS =
          stockLoop (p.place_component ("stock_" ++ toString (i0 + 1)) x y 2 2 "stock"
            (some (stockData i0))).2 rest (i0 + 1) (placed + 1) maxS := by
        rw [stockLoop]
        rw [if_neg hstop]
        simp only [hfst, if_true]
      have hfree' : ∀ s' ∈ rest,
          (p.place_component ("stock_" ++ toString (i0 + 1)) x y 2 2 "stock"
            (some (stockData i0))).2.can_place s'.1 s'.2 2 2 = true := by
        intro s' hs'
        exact can_place_after_place p _ x y 2 2 "stock" _ s'.1 s'.2 2 2
          (hfree s' (List.mem_cons_of_mem _ hs'))
          ((List.pairwise_cons.mp hdisj).1 s' hs')
      have hq1 := place_component_snd_placements _ _ _ _ _ _ _ _ hfst
      rw [hstep, ih _ (i0 + 1) (placed + 1) hfree' (List.pairwise_cons.mp hdisj).2, hq1]
      have htake : (((x, y) : Int × Int) :: rest).take (maxS - placed) =
          ((x, y) : Int × Int) :: rest.take (maxS - (placed + 1)) := by
        have hone : maxS - placed = (maxS - (placed + 1)) + 1 := by omega
        rw [hone]
        rfl
      rw [htake]
      simp [List.enumFrom]

/-- C6 (amended): the stock fill pass computes the row-major list of free 2×2
positions once and walks it greedily, placing a stock wherever the position
is still free, stopping at `max_count`; when the available 2×2 spaces are
pairwise disjoint, exactly `min max_count (number of spaces)` stocks are
placed, at the first spaces of the precomputed row-major list. -/
theorem stock_fill_disjoint_spec (cfg : GriddingConfig) (p : RetryGridPlacer)
    (hen : cfg.stock_enabled = true)
    (hdisj : p.find_2x2_spaces.Pairwise fun a b => rectsDisjoint a.1 a.2 2 2 b.1 b.2 2 2) :
    (stockPass cfg p).placements =
        p.placements ++
          ((List.enumFrom 0 (p.find_2x2_spaces.take cfg.stock_max_count)).map fun js =>
            (⟨"stock_" ++ toString (js.1 + 1), js.2.1, js.2.2, 2, 2, "stock",
              some (stockData js.1)⟩ : Placement)) ∧
      (stockPass cfg p).placements.length =
        p.placements.length + min cfg.stock_max_count p.find_2x2_spaces.length := by
  have hpass : stockPass cfg p = stockLoop p p.find_2x2_spaces 0 0 cfg.stock_max_count := by
    unfold stockPass
    rw [hen]
    rfl
  have hfree : ∀ s ∈ p.find_2x2_spaces, p.can_place s.1 s.2 2 2 = true := by
    intro s hs
    obtain ⟨a, b⟩ := s
    exact (mem_get_available_positions p 2 2 a b).mp hs
  have h1 := stockLoop_disjoint_spec p.find_2x2_spaces p 0 0 cfg.stock_max_count hfree hdisj
  rw [Nat.sub_zero] at h1
  constructor
  · rw [hpass, h1]
  · rw [hpass, h1]
    simp [List.length_take]

/-- Witness for C6: a 14×2 grid with four occupied separator columns has five
pairwise-disjoint 2×2 spaces; with `max_count = 3` exactly three stocks are
placed (7 placements in total with the four separators). -/
theorem stock_fill_disjoint_spec_witness :
    (stockPass ⟨14, 2, none, true, 3, false, false⟩
        (applyCalls (RetryGridPlacer.init 14 2)
          [⟨"a_1", 2, 0, 1, 2, "fixed", none⟩, ⟨"b_1", 5, 0, 1, 2, "fixed", none⟩,
           ⟨"c_1", 8, 0, 1, 2, "fixed", none⟩,
           ⟨"d_1", 11, 0, 1, 2, "fixed", none⟩])).placements.length = 7 := by
  have h := (stock_fill_disjoint_spec ⟨14, 2, none, true, 3, false, false⟩
    (applyCalls (RetryGridPlacer.init 14 2)
      [⟨"a_1", 2, 0, 1, 2, "fixed", none⟩, ⟨"b_1", 5, 0, 1, 2, "fixed", none⟩,
       ⟨"c_1", 8, 0, 1, 2, "fixed", none⟩,
       ⟨"d_1", 11, 0, 1, 2, "fixed", none⟩]) rfl (by decide)).2
  rw [h]
  decide

/-- Counterexample for C6 as stated: a 4×3 grid with one occupied cell at
(3,2) has exactly five available 2×2 spaces, yet the stock pass with
`max_count = 3` places only two stocks, because placing at an earlier
row-major space invalidates the overlapping later spaces. -/
theorem stock_fill_counterexample :
    (applyCalls (RetryGridPlacer.init 4 3)
        [⟨"blocker_1", 3, 2, 1, 1, "fixed", none⟩]).find_2x2_spaces.length = 5 ∧
      ((stockPass ⟨4, 3, none, true, 3, false, false⟩
          (applyCalls (RetryGridPlacer.init 4 3)
            [⟨"blocker_1", 3, 2, 1, 1, "fixed", none⟩])).placements.filter
          fun pl => pl.component_type == "stock").length = 2 := by
  decide

theorem replay_foldl (L : List Placement) (p : RetryGridPlacer) (hinv : PlacerInvariant p)
    (hb : ∀ pl ∈ L, placementInBounds p.grid_width p.grid_height pl)
    (hd : (p.placements ++ L).Pairwise placementsDisjoint) :
    (L.foldl replayStep p).placements = p.placements ++ L := by
  induction L generalizing p with
  | nil => simp
  | cons pl rest ih =>
    have hdp : ∀ q ∈ p.placements, placementsDisjoint q pl := by
      rw [List.pairwise_append] at hd
      exact fun q hq => hd.2.2 q hq pl (List.mem_cons_self _ _)
    have hcp : p.can_place pl.x pl.y pl.width pl.height = true :=
      can_place_of_free p hinv pl (hb pl (List.mem_cons_self _ _)) hdp
    have hfst : (p.place_component pl.component_id pl.x pl.y pl.width pl.height
        pl.component_type pl.data).1 = true := by
      rw [place_component_fst]
      exact hcp
    have hq1 : (replayStep p pl).placements = p.placements ++ [pl] :=
      place_component_snd_placements _ _ _ _ _ _ _ _ hfst
    have hdims := place_component_dims p pl.component_id pl.x pl.y pl.width pl.height
      pl.component_type pl.data
    have hinv' : PlacerInvariant (replayStep p pl) :=
      place_preserves_invariant p hinv pl.component_id pl.x pl.y pl.width pl.height
        pl.component_type pl.data
    have hb' : ∀ q ∈ rest,
        placementInBounds (replayStep p pl).grid_width (replayStep p pl).grid_height q := by
      intro q hq
      rw [show (replayStep p pl).grid_width = p.grid_width from hdims.1,
        show (replayStep p pl).grid_height = p.grid_height from hdims.2]
      exact hb q (List.mem_cons_of_mem _ hq)
    have hd' : ((replayStep p pl).placements ++ rest).Pairwise placementsDisjoint := by
      rw [hq1, List.append_assoc]
      exact hd
    rw [List.foldl_cons, ih (replayStep p pl) hinv' hb' hd', hq1, List.append_assoc]
    rfl

theorem placerFromBlueprint_export (p : RetryGridPlacer) (ts : String) (cs : Int) :
    placerFromBlueprint (exportBlueprint p ts cs) =
      (p.placements.map reloadPlacement).foldl replayStep
        (RetryGridPlacer.init p.grid_width p.grid_height) := by
  unfold placerFromBlueprint exportBlueprint
  simp only [List.foldl_map, exportComponent, reloadPlacement, replayStep, Int.add_sub_cancel]

theorem exportType_reload (pl : Placement) (hday : exportType pl ≠ "day_number") :
    exportType (reloadPlacement pl) = exportType pl := by
  by_cases h1 : strIn "headline" pl.component_id = true
  · simp [exportType, reloadPlacement, h1]
  · by_cases h2 : strIn "github_repo" pl.component_id = true
    · simp [exportType, reloadPlacement, h1, h2]
    · by_cases h3 : strIn "branding" pl.component_id = true
      · simp [exportType, reloadPlacement, h1, h2, h3]
      · by_cases h4 : strIn "quick_link" pl.component_id = true
        · simp [exportType, reloadPlacement, h1, h2, h3, h4]
        · by_cases h5 : pl.component_type = "stock"
          · simp [exportType, reloadPlacement, beq_iff_eq, h1, h2, h3, h4, h5]
          · by_cases h6 : pl.component_type = "dayNumber"
            · exfalso
              apply hday
              simp [exportType, beq_iff_eq, h1, h2, h3, h4, h5, h6]
            · by_cases h7 : pl.component_type = "bit"
              · simp [exportType, reloadPlacement, beq_iff_eq, h1, h2, h3, h4, h5, h6, h7]
              · simp [exportType, reloadPlacement, beq_iff_eq, h1, h2, h3, h4, h5, h6, h7]

theorem exportData_idem (od : Option DataMap) :
    exportData (some (exportData od)) = exportData od := by
  cases od <;> rfl

theorem exportComponent_reload (pl : Placement) (hday : exportType pl ≠ "day_number") :
    exportComponent (reloadPlacement pl) = exportComponent pl := by
  unfold exportComponent
  rw [exportType_reload pl hday]
  simp [reloadPlacement, exportData_idem]

theorem minimalFallback_invariant : PlacerInvariant minimalFallback :=
  place_preserves_invariant _ (place_preserves_invariant _ (place_preserves_invariant _
    (invariant_init 12 16) "branding_1" 0 0 2 2 "branding" none) "headline_1" 2 0 5 4
    "headline" none) "quick_link_1" 0 2 6 1 "quick_link" none

/-- C5 (amended): for any placer state satisfying the placer invariant,
saving the exported blueprint to the fallback store and loading it back
reconstructs the placement list exactly — same ids, same widths and heights,
positions mapped through the 1-based→0-based round trip, and each reloaded
placement's type equal to the blueprint component's `type` field; moreover
re-exporting the reloaded layout yields the original component list again
provided no component carries type `day_number` (a reloaded `day_number`
component re-exports as `unknown`). -/
theorem fallback_roundtrip_spec (p : RetryGridPlacer) (hinv : PlacerInvariant p)
    (ts ts' : String) (cs cs' : Int) :
    (placerFromBlueprint (exportBlueprint p ts cs)).placements =
        (exportBlueprint p ts cs).components.map (fun c =>
          (⟨c.id, c.position.column - 1, c.position.row - 1, c.position.width,
            c.position.height, c.type, some c.data⟩ : Placement)) ∧
      ((∀ c ∈ (exportBlueprint p ts cs).components, c.type ≠ "day_number") →
        (exportBlueprint (placerFromBlueprint (exportBlueprint p ts cs)) ts' cs').components =
          (exportBlueprint p ts cs).components) := by
  have hb' : ∀ pl ∈ p.placements.map reloadPlacement,
      placementInBounds (RetryGridPlacer.init p.grid_width p.grid_height).grid_width
        (RetryGridPlacer.init p.grid_width p.grid_height).grid_height pl := by
    intro pl hpl
    obtain ⟨q, hq, rfl⟩ := List.mem_map.mp hpl
    exact hinv.bounds q hq
  have hd' : ((RetryGridPlacer.init p.grid_width p.grid_height).placements ++
      p.placements.map reloadPlacement).Pairwise placementsDisjoint := by
    have hmapped : (p.placements.map reloadPlacement).Pairwise placementsDisjoint :=
      hinv.disjoint.map reloadPlacement (fun a b hab => hab)
    exact hmapped
  have hload : (placerFromBlueprint (exportBlueprint p ts cs)).placements =
      p.placements.map reloadPlacement := by
    rw [placerFromBlueprint_export,
      replay_foldl (p.placements.map reloadPlacement)
        (RetryGridPlacer.init p.grid_width p.grid_height) (invariant_init _ _) hb' hd']
    rfl
  have h3 : (exportBlueprint p ts cs).components = p.placements.map exportComponent := rfl
  constructor
  · have hcomp : (exportBlueprint p ts cs).components.map (fun c =>
        (⟨c.id, c.position.column - 1, c.position.row - 1, c.position.width,
          c.position.height, c.type, some c.data⟩ : Placement)) =
        p.placements.map reloadPlacement := by
      rw [h3, List.map_map]
      apply List.map_congr_left
      intro pl hpl
      simp [exportComponent, reloadPlacement, Function.comp, Int.add_sub_cancel]
    rw [hload, hcomp]
  · intro hday
    have h2 : (exportBlueprint (placerFromBlueprint (exportBlueprint p ts cs)) ts' cs').components
        = (placerFromBlueprint (exportBlueprint p ts cs)).placements.map exportComponent := rfl
    rw [h2, hload, List.map_map, h3]
    apply List.map_congr_left
    intro pl hpl
    have hdpl : exportType pl ≠ "day_number" := by
      have hmem := hday (exportComponent pl) (by
        rw [h3]
        exact List.mem_map_of_mem _ hpl)
      simpa [exportComponent] using hmem
    exact exportComponent_reload pl hdpl

/-- Witness for C5: the round trip on the concrete minimal fallback layout. -/
theorem fallback_roundtrip_spec_witness :
    (placerFromBlueprint (exportBlueprint minimalFallback "t" 32)).placements =
      (exportBlueprint minimalFallback "t" 32).components.map (fun c =>
        (⟨c.id, c.position.column - 1, c.position.row - 1, c.position.width,
          c.position.height, c.type, some c.data⟩ : Placement)) :=
  (fallback_roundtrip_spec minimalFallback minimalFallback_invariant "t" "t" 32 32).1

/-- Counterexample for C5 as stated: exporting a placer holding one
`dayNumber` placement, reloading it, and re-exporting does not reproduce the
blueprint's component list — the component's type becomes `unknown`. -/
theorem fallback_roundtrip_counterexample :
    (exportBlueprint (placerFromBlueprint (exportBlueprint
          (applyCalls (RetryGridPlacer.init 12 16)
            [⟨"day_1", 0, 0, 2, 1, "dayNumber", some [("day_number", DVal.intVal 1)]⟩])
          "t" 32)) "t" 32).components ≠
      (exportBlueprint
        (applyCalls (RetryGridPlacer.init 12 16)
          [⟨"day_1", 0, 0, 2, 1, "dayNumber", some [("day_number", DVal.intVal 1)]⟩])
        "t" 32).components := by
  decide

theorem sum_map_eq_length_filter (g : Int → Nat) (hg : ∀ x : Int, g x = 0 ∨ g x = 1)
    (l : List Int) : (l.map g).sum = (l.filter fun x => g x != 0).length := by
  induction l with
  | nil => rfl
  | cons a l ih =>
    rcases hg a with h | h
    · simp only [List.map_cons, List.sum_cons, List.filter_cons, h]
      simpa using ih
    · simp only [List.map_cons, List.sum_cons, List.filter_cons, h]
      simp only [show ((1 : Nat) != 0) = true from rfl, if_true, List.length_cons]
      omega

theorem npSum_eq_occupiedCellCount (p : RetryGridPlacer) (hinv : PlacerInvariant p) :
    npSum p = occupiedCellCount p := by
  unfold npSum occupiedCellCount
  congr 1
  apply List.map_congr_left
  intro cy hcy
  apply sum_map_eq_length_filter
  intro cx
  rcases hinv.occupancy cy cx with ⟨h, -⟩ | ⟨h, -⟩
  · right
    exact h
  · left
    exact h

/-- C9: the efficiency reported in the exported blueprint's metadata equals
(number of occupied grid cells / (columns × rows)) × 100 rounded to one
decimal place, for every grid state satisfying the placer invariant (every
state the pipeline hands to the exporter). -/
theorem efficiency_correct (p : RetryGridPlacer) (hinv : PlacerInvariant p)
    (ts : String) (cs : Int) :
    (exportBlueprint p ts cs).metadata.efficiency =
      round1Pct (occupiedCellCount p) (p.grid_width * p.grid_height) := by
  show round1Pct (npSum p) (p.grid_width * p.grid_height) = _
  rw [npSum_eq_occupiedCellCount p hinv]

/-- Witness for C9: the efficiency exported for the concrete minimal fallback
layout equals the occupied-cell formula (24 of 192 cells, i.e. 12.5). -/
theorem efficiency_correct_witness :
    (exportBlueprint minimalFallback "t" 32).metadata.efficiency =
      round1Pct (occupiedCellCount minimalFallback)
        (minimalFallback.grid_width * minimalFallback.grid_height) :=
  efficiency_correct minimalFallback minimalFallback_invariant "t" 32
